import Mathlib

set_option maxRecDepth 100000

/-!
Verification development for the s3-client library (a Go wrapper around
minio-go).  The definitions below are a shallow embedding of the library's
data model and of the functions relevant to its integrity engine (CRC32C /
MD5 checksums embedded in object metadata), its single-object get/upload
paths and its directory batch engine.  Bytes are modelled as natural
numbers below 256, 32-bit machine words as natural numbers reduced modulo
2 ^ 32, Go maps as association lists with overwrite semantics, Go errors
as an inductive wrap-chain mirroring fmt.Errorf with %w, and the
concurrent batch fan-out as an explicit transition system.
-/

namespace S3

/-! ## Bytes and hex encoding -/

/-- UTF-8 bytes of an ASCII string, as naturals below 256 (the Go code
hashes the raw bytes of the input). -/
def strBytes (s : String) : List Nat :=
  s.data.map Char.toNat

/-- Lowercase hexadecimal digit for a value below 16, as produced by Go's
encoding/hex. -/
def hexDigit (n : Nat) : Char :=
  if n < 10 then Char.ofNat (48 + n) else Char.ofNat (87 + n)

/-- Two lowercase hex digits of one byte. -/
def byteHex (b : Nat) : List Char :=
  [hexDigit (b / 16 % 16), hexDigit (b % 16)]

/-- Lowercase hex encoding of a byte sequence (encoding/hex.EncodeToString). -/
def bytesToHex (bs : List Nat) : String :=
  String.mk (bs.map byteHex).flatten

/-! ## CRC32C (hash/crc32 with the Castagnoli table)

Go computes the Castagnoli CRC with a reflected table; bit-at-a-time with
the reflected polynomial 0x82F63B78 computes the same function. -/

/-- All-ones 32-bit mask (0xFFFFFFFF). -/
def mask32 : Nat := 4294967295

/-- Reflected Castagnoli polynomial 0x82F63B78. -/
def crcPoly : Nat := 2197175160

/-- One byte of the reflected CRC32C update. -/
def crc32cStep (crc : Nat) (b : Nat) : Nat :=
  (List.range 8).foldl
    (fun c _ => if c % 2 = 1 then Nat.xor (c / 2) crcPoly else c / 2)
    (Nat.xor crc b)

/-- CRC32C of a byte sequence: initial value 0xFFFFFFFF, final xor
0xFFFFFFFF (crc32.Update semantics for the Castagnoli table). -/
def crc32c (bs : List Nat) : Nat :=
  Nat.xor (bs.foldl crc32cStep mask32) mask32

/-- Big-endian bytes of a 32-bit value, as appended by hash.Hash.Sum for
the crc32 digest. -/
def word32BE (n : Nat) : List Nat :=
  [n / 16777216 % 256, n / 65536 % 256, n / 256 % 256, n % 256]

/-- Hex-encoded CRC32C digest, the value GenerateCheckSumCRC32C produces
for the bytes it reads. -/
def crc32cHex (bs : List Nat) : String :=
  bytesToHex (word32BE (crc32c bs))

/-! ## MD5 (crypto/md5) -/

/-- Truncated 32-bit addition. -/
def add32 (a b : Nat) : Nat := (a + b) % 4294967296

/-- 32-bit left rotation (the two parts occupy disjoint bit ranges, so
addition coincides with bitwise or). -/
def rotl32 (x c : Nat) : Nat :=
  (x * 2 ^ c) % 4294967296 + x / 2 ^ (32 - c)

/-- MD5 per-round shift amounts. -/
def md5Shifts : List Nat :=
  [7, 12, 17, 22, 7, 12, 17, 22, 7, 12, 17, 22, 7, 12, 17, 22,
   5, 9, 14, 20, 5, 9, 14, 20, 5, 9, 14, 20, 5, 9, 14, 20,
   4, 11, 16, 23, 4, 11, 16, 23, 4, 11, 16, 23, 4, 11, 16, 23,
   6, 10, 15, 21, 6, 10, 15, 21, 6, 10, 15, 21, 6, 10, 15, 21]

/-- MD5 sine-derived round constants. -/
def md5K : List Nat :=
  [3614090360, 3905402710, 606105819, 3250441966,
   4118548399, 1200080426, 2821735955, 4249261313,
   1770035416, 2336552879, 4294925233, 2304563134,
   1804603682, 4254626195, 2792965006, 1236535329,
   4129170786, 3225465664, 643717713, 3921069994,
   3593408605, 38016083, 3634488961, 3889429448,
   568446438, 3275163606, 4107603335, 1163531501,
   2850285829, 4243563512, 1735328473, 2368359562,
   4294588738, 2272392833, 1839030562, 4259657740,
   2763975236, 1272893353, 4139469664, 3200236656,
   681279174, 3936430074, 3572445317, 76029189,
   3654602809, 3873151461, 530742520, 3299628645,
   4096336452, 1126891415, 2878612391, 4237533241,
   1700485571, 2399980690, 4293915773, 2240044497,
   1873313359, 4264355552, 2734768916, 1309151649,
   4149444226, 3174756917, 718787259, 3951481745]

/-- Running MD5 state (four 32-bit words). -/
structure MD5State where
  a : Nat
  b : Nat
  c : Nat
  d : Nat
  deriving DecidableEq

/-- MD5 round function F. -/
def md5F (b c d : Nat) : Nat :=
  Nat.lor (Nat.land b c) (Nat.land (Nat.xor mask32 b) d)

/-- MD5 round function G. -/
def md5G (b c d : Nat) : Nat :=
  Nat.lor (Nat.land d b) (Nat.land (Nat.xor mask32 d) c)

/-- MD5 round function H. -/
def md5H (b c d : Nat) : Nat :=
  Nat.xor (Nat.xor b c) d

/-- MD5 round function I. -/
def md5I (b c d : Nat) : Nat :=
  Nat.xor c (Nat.lor b (Nat.xor mask32 d))

/-- One of the 64 MD5 rounds over message words m. -/
def md5Round (m : List Nat) (st : MD5State) (i : Nat) : MD5State :=
  let f :=
    if i < 16 then md5F st.b st.c st.d
    else if i < 32 then md5G st.b st.c st.d
    else if i < 48 then md5H st.b st.c st.d
    else md5I st.b st.c st.d
  let g :=
    if i < 16 then i
    else if i < 32 then (5 * i + 1) % 16
    else if i < 48 then (3 * i + 5) % 16
    else (7 * i) % 16
  let tmp :=
    rotl32 (add32 (add32 (add32 st.a f) (md5K.getD i 0)) (m.getD g 0))
      (md5Shifts.getD i 0)
  ⟨st.d, add32 st.b tmp, st.b, st.c⟩

/-- One 64-byte MD5 block: decode 16 little-endian words, run the 64
rounds, add the result into the running state. -/
def md5Block (st : MD5State) (block : List Nat) : MD5State :=
  let m := (List.range 16).map fun j =>
    block.getD (4 * j) 0 + 256 * block.getD (4 * j + 1) 0 +
      65536 * block.getD (4 * j + 2) 0 + 16777216 * block.getD (4 * j + 3) 0
  let r := (List.range 64).foldl (md5Round m) st
  ⟨add32 st.a r.a, add32 st.b r.b, add32 st.c r.c, add32 st.d r.d⟩

/-- Split a byte list into 64-byte chunks; the fuel argument (instantiated
with the list length) makes the recursion structural so that it reduces. -/
def chunks64Go : Nat → List Nat → List (List Nat)
  | 0, _ => []
  | _, [] => []
  | fuel + 1, l => l.take 64 :: chunks64Go fuel (l.drop 64)

/-- Split a byte list into 64-byte chunks. -/
def chunks64 (l : List Nat) : List (List Nat) :=
  chunks64Go l.length l

/-- MD5 padding: a 0x80 byte, zeros up to 56 mod 64, then the bit length
as eight little-endian bytes. -/
def md5Pad (msg : List Nat) : List Nat :=
  let len := msg.length
  let zeros := (119 - len % 64) % 64
  msg ++ 128 :: List.replicate zeros 0 ++
    (List.range 8).map fun i => 8 * len / 2 ^ (8 * i) % 256

/-- Little-endian bytes of a 32-bit word. -/
def word32LE (n : Nat) : List Nat :=
  [n % 256, n / 256 % 256, n / 65536 % 256, n / 16777216 % 256]

/-- MD5 digest bytes of a message. -/
def md5 (msg : List Nat) : List Nat :=
  let init : MD5State := ⟨1732584193, 4023233417, 2562383102, 271733878⟩
  let fin := (chunks64 (md5Pad msg)).foldl md5Block init
  word32LE fin.a ++ word32LE fin.b ++ word32LE fin.c ++ word32LE fin.d

/-- Hex-encoded MD5 digest, the value GenerateCheckSumMD5 produces for
the bytes it reads. -/
def md5Hex (bs : List Nat) : String :=
  bytesToHex (md5 bs)

/-! ## Go errors

Errors are sentinels (errors.New), backend errors (a minio error response
carrying a code such as NoSuchKey), and fmt.Errorf("...: %w", err) wrap
chains; errors.Is walks the chain. -/

/-- Go error values as produced by this library. -/
inductive GoErr where
  | errChecksumMismatch
  | errNotFound
  | eof
  | backend (code : String)
  | wrap (msg : String) (inner : GoErr)
  deriving DecidableEq

/-- errors.Is: test the error itself, then follow the %w unwrap chain. -/
def GoErr.is : GoErr → GoErr → Bool
  | .wrap m inner, t => (GoErr.wrap m inner == t) || GoErr.is inner t
  | e, t => e == t

/-! ## Go string maps

Association lists with overwrite semantics; a nil Go map is the empty
list, and indexing a missing key yields the zero value "". -/

/-- Metadata map. -/
abbrev MetaMap := List (String × String)

/-- Map indexing m[key]; "" when absent (Go zero value). -/
def mget : MetaMap → String → String
  | [], _ => ""
  | (k, v) :: rest, key => if k = key then v else mget rest key

/-- Map assignment m[key] = val (overwrite or append). -/
def mset : MetaMap → String → String → MetaMap
  | [], key, val => [(key, val)]
  | (k, v) :: rest, key, val =>
      if k = key then (key, val) :: rest else (k, v) :: mset rest key val

/-- Map deletion delete(m, key). -/
def mdel : MetaMap → String → MetaMap
  | [], _ => []
  | (k, v) :: rest, key => if k = key then rest else (k, v) :: mdel rest key

/-- Reserved metadata key for the CRC32C checksum (details.go). -/
def keyCR32CChecksum : String := "Checksum-Cr32c"

/-- Reserved metadata key for the MD5 checksum (details.go). -/
def keyMD5Checksum : String := "Checksum-Md5"

/-! ## Seekable streams

An io.ReadSeeker is a byte sequence plus a read position.  Seek with
whence io.SeekStart sets the position and returns the new offset;
io.Copy into a hash consumes from the current position to EOF. -/

/-- State of an io.ReadSeeker. -/
structure ByteStream where
  content : List Nat
  pos : Nat
  deriving DecidableEq

/-- Seek(off, io.SeekStart): reposition and return the new offset. -/
def ByteStream.seekStart (s : ByteStream) (off : Nat) : ByteStream × Nat :=
  ({ s with pos := off }, off)

/-- GenerateCheckSumCRC32C: io.Copy the remaining bytes into a CRC32C
hash and hex-encode the sum; the reader is left at EOF. -/
def GenerateCheckSumCRC32C (data : ByteStream) : ByteStream × String :=
  ({ data with pos := data.content.length },
   crc32cHex (data.content.drop data.pos))

/-- GenerateCheckSumMD5: io.Copy the remaining bytes into an MD5 hash and
hex-encode the sum; the reader is left at EOF. -/
def GenerateCheckSumMD5 (data : ByteStream) : ByteStream × String :=
  ({ data with pos := data.content.length },
   md5Hex (data.content.drop data.pos))

/-- getCheckSumCRC32C: startPos is the value returned by
Seek(0, io.SeekStart) — always 0 — then the whole stream is hashed and
the position is restored to startPos. -/
def getCheckSumCRC32C (obj : ByteStream) : ByteStream × String :=
  let (s1, startPos) := obj.seekStart 0
  let (s2, sum) := GenerateCheckSumCRC32C s1
  let (s3, _) := s2.seekStart startPos
  (s3, sum)

/-- getCheckSumMD5: same shape as getCheckSumCRC32C with the MD5 codec. -/
def getCheckSumMD5 (obj : ByteStream) : ByteStream × String :=
  let (s1, startPos) := obj.seekStart 0
  let (s2, sum) := GenerateCheckSumMD5 s1
  let (s3, _) := s2.seekStart startPos
  (s3, sum)

/-- compareChecksum on a checksum c against the expected string: a
mismatch error exactly when expected is non-empty and differs. -/
def compareChecksum (c expected : String) : Option GoErr :=
  if expected ≠ "" ∧ expected ≠ c then some .errChecksumMismatch else none

/-! ## Data model (file.go, details.go, part_000) -/

/-- FileInfo with the embedded Integrity struct flattened into its two
checksum fields. -/
structure FileInfo where
  name : String
  path : String
  size : Int
  contentType : String
  metaData : MetaMap
  lastModified : Nat
  checksumCRC32C : String
  checksumMD5 : String
  deriving DecidableEq

/-- Per-client integrity settings (integritySettings embedded in the
client struct). -/
structure ClientFlags where
  useIntegrityCRC32C : Bool
  useIntegrityMD5 : Bool
  deriving DecidableEq

/-- getOptions: per-call expected checksums set by WithIntegrityCheckCRC32C
and WithIntegrityCheckMD5; zero value is two empty strings. -/
structure GetOptions where
  checksumCRC32C : String
  checksumMD5 : String
  deriving DecidableEq

/-- handleIntegrityParams, minus the getOptions pointer which is passed
explicitly to the functions that read it. -/
structure HandleIntegrityParams where
  content : ByteStream
  info : FileInfo
  crc32c : String
  md5 : String
  deriving DecidableEq

/-- handleGetFileIntegritySettings: for each enabled kind, compute the
checksum from content when no embedded value exists, then publish it into
the FileInfo.  GetFile always passes the fetched object, so the Go guard
params.content != nil is always true here. -/
def handleGetFileIntegritySettings (c : ClientFlags)
    (p : HandleIntegrityParams) : HandleIntegrityParams :=
  let p :=
    if c.useIntegrityCRC32C then
      let p :=
        if p.crc32c = "" then
          let (s, sum) := getCheckSumCRC32C p.content
          { p with content := s, crc32c := sum }
        else p
      { p with info := { p.info with checksumCRC32C := p.crc32c } }
    else p
  if c.useIntegrityMD5 then
    let p :=
      if p.md5 = "" then
        let (s, sum) := getCheckSumMD5 p.content
        { p with content := s, md5 := sum }
      else p
    { p with info := { p.info with checksumMD5 := p.md5 } }
  else p

/-- handleGetFileIntegrityCheckOptionsCRC32C: compute the checksum when no
value is known yet, compare against the caller expectation, and publish on
success.  Mutations to params persist even when the comparison fails,
since Go passes params by pointer. -/
def handleGetFileIntegrityCheckOptionsCRC32C (opts : GetOptions)
    (p : HandleIntegrityParams) : HandleIntegrityParams × Option GoErr :=
  let p :=
    if p.crc32c = "" then
      let (s, sum) := getCheckSumCRC32C p.content
      { p with content := s, crc32c := sum }
    else p
  match compareChecksum p.crc32c opts.checksumCRC32C with
  | some e =>
      (p, some (.wrap "failed to handle cr32c integrity check options" e))
  | none =>
      ({ p with info := { p.info with checksumCRC32C := p.crc32c } }, none)

/-- handleGetFileIntegrityCheckOptionsMD5: MD5 counterpart of the CRC32C
option handler. -/
def handleGetFileIntegrityCheckOptionsMD5 (opts : GetOptions)
    (p : HandleIntegrityParams) : HandleIntegrityParams × Option GoErr :=
  let p :=
    if p.md5 = "" then
      let (s, sum) := getCheckSumMD5 p.content
      { p with content := s, md5 := sum }
    else p
  match compareChecksum p.md5 opts.checksumMD5 with
  | some e => (p, some (.wrap "failed to handle md5 integrity options" e))
  | none => ({ p with info := { p.info with checksumMD5 := p.md5 } }, none)

/-- handleGetFileIntegrityOptions: run the CRC32C handler when a CRC32C
expectation was supplied, then the MD5 handler when an MD5 expectation was
supplied.  Faithful to the source: the single err variable is assigned by
each executed handler in turn, so a later handler's nil result replaces an
earlier handler's error. -/
def handleGetFileIntegrityOptions (opts : GetOptions)
    (p : HandleIntegrityParams) : HandleIntegrityParams × Option GoErr :=
  let (p, err) :=
    if opts.checksumCRC32C ≠ "" then
      handleGetFileIntegrityCheckOptionsCRC32C opts p
    else (p, none)
  let (p, err) :=
    if opts.checksumMD5 ≠ "" then handleGetFileIntegrityCheckOptionsMD5 opts p
    else (p, err)
  match err with
  | some e => (p, some (.wrap "failed to handle integrity options" e))
  | none => (p, none)

/-- handleIntegrity: extract the embedded checksums from the metadata,
strip the reserved keys, apply the client-level settings, then the
per-call options when a getOptions value was supplied. -/
def handleIntegrity (c : ClientFlags) (obj : ByteStream) (info : FileInfo)
    (getOptions : Option GetOptions) : Except GoErr (FileInfo × ByteStream) :=
  let p : HandleIntegrityParams :=
    { content := obj
      info := info
      crc32c := mget info.metaData keyCR32CChecksum
      md5 := mget info.metaData keyMD5Checksum }
  let p := { p with info := { p.info with
      metaData := mdel (mdel p.info.metaData keyCR32CChecksum) keyMD5Checksum } }
  let p := handleGetFileIntegritySettings c p
  match getOptions with
  | none => .ok (p.info, p.content)
  | some opts =>
      match handleGetFileIntegrityOptions opts p with
      | (_, some e) => .error (.wrap "failed to handle integrity" e)
      | (p, none) => .ok (p.info, p.content)

/-- handleGetFileInfoIntegrity (the metadata-only GetFileInfo path):
surface embedded checksums for enabled kinds, then strip reserved keys;
no content is available, nothing is computed. -/
def handleGetFileInfoIntegrity (c : ClientFlags) (info : FileInfo) :
    FileInfo :=
  let info :=
    if c.useIntegrityCRC32C then
      { info with checksumCRC32C := mget info.metaData keyCR32CChecksum }
    else info
  let info :=
    if c.useIntegrityMD5 then
      { info with checksumMD5 := mget info.metaData keyMD5Checksum }
    else info
  { info with
    metaData := mdel (mdel info.metaData keyCR32CChecksum) keyMD5Checksum }

/-! ## GetFile (part_003) -/

/-- path.Base from the Go standard library. -/
def pathBase (p : String) : String :=
  if p = "" then "."
  else
    let trimmed := p.data.reverse.dropWhile (· = '/')
    if trimmed = [] then "/"
    else String.mk (trimmed.takeWhile (· ≠ '/')).reverse

/-- Stat snapshot the backend reports for an object. -/
structure ObjStat where
  key : String
  size : Int
  contentType : String
  userMetadata : MetaMap
  lastModified : Nat
  deriving DecidableEq

/-- Outcome of the backend GetObject/Stat sequence: GetObject may error,
object.Stat() may error, objInfo.Err may be set, or everything succeeds
with a stat snapshot and the object content. -/
inductive GetObjectOutcome where
  | getFailure (e : GoErr)
  | statFailure (e : GoErr)
  | objInfoFailure (e : GoErr)
  | success (stat : ObjStat) (content : List Nat)
  deriving DecidableEq

/-- File handle returned by GetFile: the FileInfo plus the object stream
(at whatever position the integrity handling left it). -/
structure GoFile where
  info : FileInfo
  stream : ByteStream
  deriving DecidableEq

/-- Error-message prefix of GetFile. -/
def getFileErrMessage : String := "failed to get file from s3"

/-- GetFile: wrap any backend failure, otherwise build the FileInfo from
the stat snapshot and run handleIntegrity on the object stream (a fresh
object, position 0).  GetFile always materialises a (possibly zero-valued)
getOptions struct, so handleIntegrity receives a non-nil pointer. -/
def GetFile (c : ClientFlags) (outcome : GetObjectOutcome) (path : String)
    (opts : GetOptions) : Except GoErr GoFile :=
  match outcome with
  | .getFailure e => .error (.wrap getFileErrMessage e)
  | .statFailure e => .error (.wrap getFileErrMessage e)
  | .objInfoFailure e => .error (.wrap getFileErrMessage e)
  | .success stat content =>
      let info : FileInfo :=
        { name := pathBase path
          path := stat.key
          size := stat.size
          contentType := stat.contentType
          metaData := stat.userMetadata
          lastModified := stat.lastModified
          checksumCRC32C := ""
          checksumMD5 := "" }
      match handleIntegrity c ⟨content, 0⟩ info (some opts) with
      | .error e => .error (.wrap getFileErrMessage e)
      | .ok (info, s) => .ok ⟨info, s⟩

/-! ## UploadFile (part_003) -/

/-- Upload value (part_000): stream, destination path, content type,
caller metadata and optional declared size. -/
structure Upload where
  stream : ByteStream
  path : String
  contentType : String
  metaData : MetaMap
  size : Option Int
  deriving DecidableEq

/-- Arguments UploadFile hands to the backend PutObject call. -/
structure PutObjectCall where
  path : String
  payload : ByteStream
  size : Int
  contentType : String
  userMetadata : MetaMap
  deriving DecidableEq

/-- UploadInfo with the embedded Integrity flattened. -/
structure UploadInfo where
  size : Int
  checksumCRC32C : String
  checksumMD5 : String
  deriving DecidableEq

/-- Size passed to the backend when the upload declares none. -/
def defaultUploadSize : Int := -1

/-- UploadFile: for each enabled kind compute the checksum of the upload
stream and store it under the reserved metadata key, then copy the caller
metadata over the map, then call PutObject.  storedSize stands for the
size the backend reports for the stored object (objInfo.Size). -/
def UploadFile (c : ClientFlags) (upload : Upload)
    (optsUserMetadata : Option MetaMap) (optsContentType : String)
    (storedSize : Int) : PutObjectCall × UploadInfo :=
  let size :=
    match upload.size with
    | some v => v
    | none => defaultUploadSize
  let meta := optsUserMetadata.getD []
  let st := upload.stream
  let (st, meta, crc32cVal) :=
    if c.useIntegrityCRC32C then
      let (s, sum) := getCheckSumCRC32C st
      (s, mset meta keyCR32CChecksum sum, sum)
    else (st, meta, "")
  let (st, meta, md5Val) :=
    if c.useIntegrityMD5 then
      let (s, sum) := getCheckSumMD5 st
      (s, mset meta keyMD5Checksum sum, sum)
    else (st, meta, "")
  let meta := upload.metaData.foldl (fun m kv => mset m kv.1 kv.2) meta
  let contentType :=
    if upload.contentType ≠ "" then upload.contentType else optsContentType
  (⟨upload.path, st, size, contentType, meta⟩,
   ⟨storedSize, crc32cVal, md5Val⟩)

/-! ## file.Bytes (file.go) -/

/-- file.Bytes: allocate a buffer of info.Size bytes, issue one Read into
it, and return the buffer unless the Read reported a non-EOF error.
n is the number of bytes the single Read call produces (an io.Reader may
return fewer than requested); readErr is the error it reports. -/
def GoFile.Bytes (f : GoFile) (n : Nat) (readErr : Option GoErr) :
    Except GoErr (List Nat) :=
  let size := f.info.size.toNat
  let readCount := min n size
  let data := (f.stream.content.drop f.stream.pos).take readCount
  let buf := data ++ List.replicate (size - data.length) 0
  match readErr with
  | some e =>
      if GoErr.is e .eof then .ok buf
      else .error (.wrap "failed to read file" e)
  | none => .ok buf

/-! ## Directory batch engine (GetDirectory / GetDirectoryInfos /
DownloadDirectory in part_003)

Each listed key gets one goroutine running the per-key operation.  A
failing goroutine sends its error on an unbuffered channel (errCh) and
only then lets its deferred wg.Done run; the main goroutine blocks in
wg.Wait() until every worker is done, and only afterwards drains errCh
and builds the aggregate DownloadingFilesFailedError.  The transition
system below models exactly this synchronisation: a rendezvous on the
unbuffered channel (recv) requires the main goroutine to have passed the
join barrier, and passing the join barrier requires every worker to be
done. -/

/-- Phase of one per-key goroutine. -/
inductive WorkerPhase where
  | running
  | blockedSend
  | done
  deriving DecidableEq

/-- Global state of one directory batch call. -/
structure BatchState where
  workers : List WorkerPhase
  mainJoined : Bool
  collected : Nat
  returned : Bool
  deriving DecidableEq

/-- Initial state: one running worker per listed key; fails records which
per-key operations will fail. -/
def initBatchState (fails : List Bool) : BatchState :=
  ⟨List.replicate fails.length .running, false, 0, false⟩

/-- One scheduler step of the batch engine. -/
inductive BatchStep (fails : List Bool) : BatchState → BatchState → Prop where
  | finishOk (s : BatchState) (i : Nat) :
      fails.get? i = some false →
      s.workers.get? i = some .running →
      BatchStep fails s { s with workers := s.workers.set i .done }
  | failBlock (s : BatchState) (i : Nat) :
      fails.get? i = some true →
      s.workers.get? i = some .running →
      BatchStep fails s { s with workers := s.workers.set i .blockedSend }
  | join (s : BatchState) :
      s.mainJoined = false →
      (∀ w ∈ s.workers, w = .done) →
      BatchStep fails s { s with mainJoined := true }
  | recv (s : BatchState) (i : Nat) :
      s.mainJoined = true →
      s.returned = false →
      s.workers.get? i = some .blockedSend →
      BatchStep fails s
        { s with workers := s.workers.set i .done,
                 collected := s.collected + 1 }
  | ret (s : BatchState) :
      s.mainJoined = true →
      s.returned = false →
      BatchStep fails s { s with returned := true }

/-- States the batch call can reach from its start. -/
def BatchReachable (fails : List Bool) (s : BatchState) : Prop :=
  Relation.ReflTransGen (BatchStep fails) (initBatchState fails) s

/-! ## Derived definitions used in statements -/

/-- Checksum field of a successful GetFile result. -/
def getFileChecksumCRC32C (r : Except GoErr GoFile) : Option String :=
  match r with
  | .ok f => some f.info.checksumCRC32C
  | .error _ => none

/-- MD5 field of a successful GetFile result. -/
def getFileChecksumMD5 (r : Except GoErr GoFile) : Option String :=
  match r with
  | .ok f => some f.info.checksumMD5
  | .error _ => none

/-- Whether GetFile returned a file (err == nil). -/
def getFileOk (r : Except GoErr GoFile) : Bool :=
  match r with
  | .ok _ => true
  | .error _ => false

/-- The error of a failed GetFile call. -/
def getFileErr (r : Except GoErr GoFile) : Option GoErr :=
  match r with
  | .error e => some e
  | .ok _ => none

/-- errors.Is(err, ErrChecksumMismatch) on a GetFile result. -/
def errIsMismatch (r : Except GoErr GoFile) : Bool :=
  match r with
  | .error e => e.is .errChecksumMismatch
  | .ok _ => false

/-- Value of the last entry for a key in the caller metadata sequence
(the write that wins when the entries are applied in order). -/
def lastLookup : MetaMap → String → Option String
  | [], _ => none
  | (k, v) :: rest, key =>
      match lastLookup rest key with
      | some w => some w
      | none => if k = key then some v else none

/-- Invariant of a failing batch call: the join barrier has not been
passed, the call has not returned, and no failing worker is done. -/
def BatchInv (fails : List Bool) (s : BatchState) : Prop :=
  s.workers.length = fails.length ∧ s.mainJoined = false ∧
    s.returned = false ∧
    ∀ i, fails.get? i = some true → s.workers.get? i ≠ some .done

/-- Bytes of the test content used throughout the repository's tests. -/
def content12 : List Nat := strBytes "asdfqweryxcv"

/-- Stat snapshot of an object stored without embedded checksums. -/
def stat0 : ObjStat := ⟨"dir/key", 12, "text/plain", [], 0⟩

/-- Upload whose caller metadata collides with the reserved CRC32C key. -/
def c2Upload : Upload :=
  ⟨⟨content12, 0⟩, "dir/key", "", [(keyCR32CChecksum, "boom")], none⟩

end S3

namespace S3

/-! ## Helper lemmas on lists and maps -/

theorem get?_set_ne {α : Type} (l : List α) (a : α) :
    ∀ i j, i ≠ j → (l.set i a).get? j = l.get? j := by
  induction l with
  | nil => intro i j _; simp
  | cons x xs ih =>
      intro i j hij
      cases i with
      | zero =>
          cases j with
          | zero => exact absurd rfl hij
          | succ j => simp [List.set]
      | succ i =>
          cases j with
          | zero => simp [List.set]
          | succ j =>
              simp only [List.set, List.get?]
              exact ih i j (fun h => hij (by rw [h]))

theorem get?_set_self {α : Type} (l : List α) (a : α) :
    ∀ i, i < l.length → (l.set i a).get? i = some a := by
  induction l with
  | nil => intro i h; simp at h
  | cons x xs ih =>
      intro i h
      cases i with
      | zero => simp [List.set]
      | succ i =>
          simp only [List.set, List.get?]
          exact ih i (by simpa using h)

theorem get?_replicate {α : Type} (x : α) :
    ∀ n i, i < n → (List.replicate n x).get? i = some x := by
  intro n
  induction n with
  | zero => intro i h; simp at h
  | succ n ih =>
      intro i h
      cases i with
      | zero => simp [List.replicate]
      | succ i => simpa [List.replicate] using ih i (by omega)

theorem lt_length_of_get?_eq_some {α : Type} {l : List α} {i : Nat} {a : α}
    (h : l.get? i = some a) : i < l.length := by
  by_contra hlt
  rw [List.get?_eq_none.mpr (Nat.le_of_not_lt hlt)] at h
  cases h

theorem mem_of_get?_eq_some {α : Type} {l : List α} {a : α} :
    ∀ {i : Nat}, l.get? i = some a → a ∈ l := by
  induction l with
  | nil => intro i h; cases h
  | cons x xs ih =>
      intro i h
      cases i with
      | zero =>
          simp only [List.get?] at h
          cases h
          exact List.mem_cons_self _ _
      | succ i => exact List.mem_cons_of_mem x (ih h)

theorem mget_mset_self (m : MetaMap) (k v : String) :
    mget (mset m k v) k = v := by
  induction m with
  | nil => simp [mget, mset]
  | cons kv rest ih =>
      by_cases h : kv.1 = k <;> simp [mget, mset, h, ih]

theorem mget_mset_ne (m : MetaMap) (k q v : String) (h : k ≠ q) :
    mget (mset m k v) q = mget m q := by
  induction m with
  | nil => simp [mget, mset, h]
  | cons kv rest ih =>
      by_cases hk : kv.1 = k
      · simp [mget, mset, hk, h]
      · by_cases hq : kv.1 = q <;> simp [mget, mset, hk, hq, ih, Ne.symm h]

theorem mget_foldl_mset (entries : MetaMap) :
    ∀ (m : MetaMap) (key : String),
      mget (entries.foldl (fun acc kv => mset acc kv.1 kv.2) m) key =
        match lastLookup entries key with
        | some v => v
        | none => mget m key := by
  induction entries with
  | nil => intro m key; simp [lastLookup]
  | cons kv rest ih =>
      intro m key
      simp only [List.foldl_cons, lastLookup]
      rw [ih]
      cases hrest : lastLookup rest key with
      | some w => simp
      | none =>
          by_cases hk : kv.1 = key
          · subst hk; simp [mget_mset_self]
          · simp [hk, mget_mset_ne m kv.1 key kv.2 hk]

/-! ## Batch engine invariant -/

theorem batchInv_init (fails : List Bool) :
    BatchInv fails (initBatchState fails) := by
  refine ⟨by simp [initBatchState], rfl, rfl, ?_⟩
  intro i hi
  have hlt : i < fails.length := lt_length_of_get?_eq_some hi
  show (List.replicate fails.length WorkerPhase.running).get? i ≠ some .done
  rw [get?_replicate _ _ _ hlt]
  simp

theorem batchInv_step {fails : List Bool}
    (hfail : ∃ i, fails.get? i = some true) {s t : BatchState}
    (hinv : BatchInv fails s) (hstep : BatchStep fails s t) :
    BatchInv fails t := by
  obtain ⟨hlen, hmj, hret, hnd⟩ := hinv
  cases hstep with
  | finishOk i hfi hwi =>
      refine ⟨by simp [hlen], hmj, hret, ?_⟩
      intro j hj
      by_cases hij : i = j
      · subst hij
        rw [hfi] at hj
        simp at hj
      · rw [get?_set_ne _ _ _ _ hij]
        exact hnd j hj
  | failBlock i hfi hwi =>
      refine ⟨by simp [hlen], hmj, hret, ?_⟩
      intro j hj
      by_cases hij : i = j
      · subst hij
        rw [get?_set_self _ _ _ (lt_length_of_get?_eq_some hwi)]
        simp
      · rw [get?_set_ne _ _ _ _ hij]
        exact hnd j hj
  | join hmjs hall =>
      exfalso
      obtain ⟨i, hi⟩ := hfail
      have hlt : i < s.workers.length := by
        rw [hlen]
        exact lt_length_of_get?_eq_some hi
      obtain ⟨w, hw⟩ : ∃ w, s.workers.get? i = some w := by
        cases hcase : s.workers.get? i with
        | none =>
            exact absurd (List.get?_eq_none.mp hcase) (Nat.not_le_of_lt hlt)
        | some w => exact ⟨w, rfl⟩
      have hwd : w = .done := hall w (mem_of_get?_eq_some hw)
      exact hnd i hi (hwd ▸ hw)
  | recv i hmjs hrets hwi =>
      exfalso
      rw [hmj] at hmjs
      cases hmjs
  | ret hmjs hrets =>
      exfalso
      rw [hmj] at hmjs
      cases hmjs

/-! ## Claim theorems -/

/-- C1 (counterexample): on a client with CRC32C enabled, fetching an
object whose metadata has no embedded CRC32C value and supplying no
expected checksum does NOT leave the Integrity field empty: the digest is
computed from the downloaded content and surfaced ("4748d6bb" ≠ ""). -/
theorem getFile_missing_embedded_checksum_computed_counterexample :
    getFileChecksumCRC32C
        (GetFile ⟨true, false⟩ (.success stat0 content12) "dir/key"
          ⟨"", ""⟩) = some "4748d6bb" ∧
      ("4748d6bb" : String) ≠ "" := by
  constructor
  · decide
  · decide

/-- C1 (amended): for a client with a checksum kind globally enabled,
when the fetched object carries no embedded checksum of that kind and the
caller supplied no explicit expectation for that kind (an expectation for
the OTHER kind may be supplied, and the other kind's flag is arbitrary),
every FileInfo the call returns has that kind's checksum field populated
with the digest computed from the downloaded content — it is not left
empty.  Stated for both kinds. -/
theorem getFile_enabled_kind_computes_missing_checksum
    (crcFlag mdFlag : Bool) (stat : ObjStat) (content : List Nat)
    (path : String) (otherExp : String) :
    (mget stat.userMetadata keyCR32CChecksum = "" →
        getFileOk
            (GetFile ⟨true, mdFlag⟩ (.success stat content) path
              ⟨"", otherExp⟩) = true →
        getFileChecksumCRC32C
            (GetFile ⟨true, mdFlag⟩ (.success stat content) path
              ⟨"", otherExp⟩) = some (crc32cHex content)) ∧
      (mget stat.userMetadata keyMD5Checksum = "" →
          getFileOk
              (GetFile ⟨crcFlag, true⟩ (.success stat content) path
                ⟨otherExp, ""⟩) = true →
          getFileChecksumMD5
              (GetFile ⟨crcFlag, true⟩ (.success stat content) path
                ⟨otherExp, ""⟩) = some (md5Hex content)) := by
  constructor
  · intro h hok
    by_cases h3 : otherExp = ""
    · cases mdFlag <;>
        by_cases h2 : mget stat.userMetadata keyMD5Checksum = "" <;>
          simp [GetFile, handleIntegrity, handleGetFileIntegritySettings,
            handleGetFileIntegrityOptions, getFileChecksumCRC32C,
            getCheckSumCRC32C, getCheckSumMD5, GenerateCheckSumCRC32C,
            GenerateCheckSumMD5, ByteStream.seekStart, h, h2, h3]
    · by_cases h4 : otherExp =
          (if mget stat.userMetadata keyMD5Checksum = "" then
            md5Hex content
          else mget stat.userMetadata keyMD5Checksum)
      · cases mdFlag <;>
          by_cases h2 : mget stat.userMetadata keyMD5Checksum = "" <;>
            · simp only [h2, if_true, if_false, Bool.false_eq_true] at h4
              subst h4
              simp [GetFile, handleIntegrity, handleGetFileIntegritySettings,
                handleGetFileIntegrityOptions,
                handleGetFileIntegrityCheckOptionsMD5, getFileChecksumCRC32C,
                compareChecksum, getCheckSumCRC32C, getCheckSumMD5,
                GenerateCheckSumCRC32C, GenerateCheckSumMD5,
                ByteStream.seekStart, h, h2, h3]
      · exfalso
        revert hok
        cases mdFlag <;>
          by_cases h2 : mget stat.userMetadata keyMD5Checksum = "" <;>
            · simp only [h2, if_true, if_false, Bool.false_eq_true] at h4
              simp [GetFile, handleIntegrity, handleGetFileIntegritySettings,
                handleGetFileIntegrityOptions,
                handleGetFileIntegrityCheckOptionsMD5, getFileOk,
                compareChecksum, getCheckSumCRC32C, getCheckSumMD5,
                GenerateCheckSumCRC32C, GenerateCheckSumMD5,
                ByteStream.seekStart, h, h2, h3, h4]
  · intro h hok
    by_cases h3 : otherExp = ""
    · cases crcFlag <;>
        by_cases h2 : mget stat.userMetadata keyCR32CChecksum = "" <;>
          simp [GetFile, handleIntegrity, handleGetFileIntegritySettings,
            handleGetFileIntegrityOptions, getFileChecksumMD5,
            getCheckSumCRC32C, getCheckSumMD5, GenerateCheckSumCRC32C,
            GenerateCheckSumMD5, ByteStream.seekStart, h, h2, h3]
    · by_cases h4 : otherExp =
          (if mget stat.userMetadata keyCR32CChecksum = "" then
            crc32cHex content
          else mget stat.userMetadata keyCR32CChecksum)
      · cases crcFlag <;>
          by_cases h2 : mget stat.userMetadata keyCR32CChecksum = "" <;>
            · simp only [h2, if_true, if_false, Bool.false_eq_true] at h4
              subst h4
              simp [GetFile, handleIntegrity, handleGetFileIntegritySettings,
                handleGetFileIntegrityOptions,
                handleGetFileIntegrityCheckOptionsCRC32C, getFileChecksumMD5,
                compareChecksum, getCheckSumCRC32C, getCheckSumMD5,
                GenerateCheckSumCRC32C, GenerateCheckSumMD5,
                ByteStream.seekStart, h, h2, h3]
      · exfalso
        revert hok
        cases crcFlag <;>
          by_cases h2 : mget stat.userMetadata keyCR32CChecksum = "" <;>
            · simp only [h2, if_true, if_false, Bool.false_eq_true] at h4
              simp [GetFile, handleIntegrity, handleGetFileIntegritySettings,
                handleGetFileIntegrityOptions,
                handleGetFileIntegrityCheckOptionsCRC32C, getFileOk,
                compareChecksum, getCheckSumCRC32C, getCheckSumMD5,
                GenerateCheckSumCRC32C, GenerateCheckSumMD5,
                ByteStream.seekStart, h, h2, h3, h4]

/-- C1 (witness): the amended theorem applied to the concrete scenario of
the counterexample (CRC32C enabled, no embedded checksums, no explicit
expectations; the call succeeds and surfaces the computed digest). -/
theorem getFile_enabled_kind_computes_missing_checksum_witness :
    mget stat0.userMetadata keyCR32CChecksum = "" ∧
      getFileOk
          (GetFile ⟨true, false⟩ (.success stat0 content12) "dir/key"
            ⟨"", ""⟩) = true ∧
      getFileChecksumCRC32C
          (GetFile ⟨true, false⟩ (.success stat0 content12) "dir/key"
            ⟨"", ""⟩) =
        some (crc32cHex content12) :=
  ⟨rfl, by decide,
    (getFile_enabled_kind_computes_missing_checksum false false stat0
          content12 "dir/key" "").1 rfl (by decide)⟩

/-- C2 (counterexample): with CRC32C integrity enabled and caller metadata
containing the reserved key "Checksum-Cr32c" with value "boom", the
metadata handed to PutObject carries the CALLER value "boom", not the
computed checksum "4748d6bb" (which still appears in the UploadInfo). -/
theorem uploadFile_reserved_key_collision_counterexample :
    mget (UploadFile ⟨true, false⟩ c2Upload none "" 12).1.userMetadata
        keyCR32CChecksum = "boom" ∧
      (UploadFile ⟨true, false⟩ c2Upload none "" 12).2.checksumCRC32C =
        "4748d6bb" ∧
      ("boom" : String) ≠ "4748d6bb" := by
  refine ⟨?_, ?_, ?_⟩ <;> decide

/-- C2 (amended): when the caller metadata contains an entry for a key —
including a reserved checksum key — the value handed to the storage
backend under that key is the caller's value: the caller metadata loop
runs after the reserved keys are written, so the caller's write wins. -/
theorem uploadFile_caller_metadata_wins (c : ClientFlags) (u : Upload)
    (om : Option MetaMap) (ct : String) (ss : Int) (key v : String)
    (h : lastLookup u.metaData key = some v) :
    mget (UploadFile c u om ct ss).1.userMetadata key = v := by
  cases hc : c.useIntegrityCRC32C <;> cases hm : c.useIntegrityMD5 <;>
    · simp only [UploadFile, hc, hm, if_true, if_false, Bool.false_eq_true]
      rw [mget_foldl_mset]
      simp [h]

/-- C2 (witness): the amended theorem applied to the collision scenario.
-/
theorem uploadFile_caller_metadata_wins_witness :
    lastLookup c2Upload.metaData keyCR32CChecksum = some "boom" ∧
      mget (UploadFile ⟨true, false⟩ c2Upload none "" 12).1.userMetadata
          keyCR32CChecksum = "boom" :=
  ⟨by decide,
    uploadFile_caller_metadata_wins ⟨true, false⟩ c2Upload none "" 12
      keyCR32CChecksum "boom" (by decide)⟩

/-- C3 (counterexample): for a stream whose read position is 5, computing
a checksum via getCheckSumCRC32C or getCheckSumMD5 does not restore the
position to its original offset (the position afterwards is 0, not 5). -/
theorem getCheckSum_offset_not_restored_counterexample :
    (getCheckSumCRC32C ⟨content12, 5⟩).1.pos ≠ 5 ∧
      (getCheckSumMD5 ⟨content12, 5⟩).1.pos ≠ 5 := by
  constructor <;> decide

/-- C3 (amended): after getCheckSumCRC32C / getCheckSumMD5 the stream's
position is the START of the stream (offset 0, the value the initial
Seek(0, io.SeekStart) returned), not the original offset; the content is
unchanged and the digest is computed over the full content from the
start, so a consumer reading afterwards reads the full original content.
-/
theorem getCheckSum_rewinds_to_start (s : ByteStream) :
    (getCheckSumCRC32C s).1.pos = 0 ∧
      (getCheckSumCRC32C s).1.content = s.content ∧
      (getCheckSumCRC32C s).2 = crc32cHex s.content ∧
      (getCheckSumMD5 s).1.pos = 0 ∧
      (getCheckSumMD5 s).1.content = s.content ∧
      (getCheckSumMD5 s).2 = md5Hex s.content := by
  simp [getCheckSumCRC32C, getCheckSumMD5, GenerateCheckSumCRC32C,
    GenerateCheckSumMD5, ByteStream.seekStart]

/-- C4: in a directory batch call where at least one per-key operation
fails, no reachable state of the engine has returned: the failing worker
is blocked sending on the unbuffered error channel, whose receives only
start after the wg.Wait join barrier, which in turn requires every worker
to be done — so the aggregate error is never produced (deadlock). -/
theorem batch_failure_never_returns (fails : List Bool)
    (hfail : ∃ i, fails.get? i = some true) :
    ∀ s, BatchReachable fails s → s.returned = false := by
  have key : ∀ s, BatchReachable fails s → BatchInv fails s := by
    intro s hr
    induction hr with
    | refl => exact batchInv_init fails
    | tail hab hbc ih => exact batchInv_step hfail ih hbc
  intro s hr
  exact (key s hr).2.2.1

/-- C4 (witness): a one-key batch whose only operation fails; the initial
state is reachable and not returned. -/
theorem batch_failure_never_returns_witness :
    (∃ i, [true].get? i = some true) ∧
      (initBatchState [true]).returned = false :=
  ⟨⟨0, rfl⟩,
    batch_failure_never_returns [true] ⟨0, rfl⟩ (initBatchState [true])
      Relation.ReflTransGen.refl⟩

/-- C5 (counterexample): when the backend stat reports the NoSuchKey
condition, GetFile returns the generically wrapped backend error, and
errors.Is on it does NOT find the ErrNotFound sentinel. -/
theorem getFile_missing_key_not_errNotFound_counterexample :
    getFileErr
        (GetFile ⟨true, false⟩ (.statFailure (.backend "NoSuchKey"))
          "dir/key" ⟨"", ""⟩) =
      some (.wrap getFileErrMessage (.backend "NoSuchKey")) ∧
      GoErr.is (.wrap getFileErrMessage (.backend "NoSuchKey"))
        .errNotFound = false := by
  constructor <;> decide

/-- C5 (amended): GetFile wraps whatever error object.Stat() reports with
its call-site message and propagates it unchanged in kind; it never maps
the backend's no-such-key condition to the ErrNotFound sentinel, so
errors.Is finds ErrNotFound in the result exactly when it was already in
the backend error. -/
theorem getFile_stat_failure_wraps_error (c : ClientFlags) (e : GoErr)
    (path : String) (opts : GetOptions) :
    getFileErr (GetFile c (.statFailure e) path opts) =
        some (.wrap getFileErrMessage e) ∧
      GoErr.is (.wrap getFileErrMessage e) .errNotFound =
        GoErr.is e .errNotFound := by
  constructor
  · rfl
  · simp [GoErr.is]

/-- C6: on a client with CRC32C enabled, an object without embedded
checksums and content "asdfqweryxcv": supplying only the wrong CRC32C
expectation "00000000" fails with ErrChecksumMismatch, but supplying the
same wrong CRC32C expectation TOGETHER with the correct MD5 expectation
succeeds — the single err variable in handleGetFileIntegrityOptions is
overwritten by the MD5 handler's nil result, swallowing the mismatch. -/
theorem getFile_crc32c_mismatch_swallowed_by_md5_check :
    errIsMismatch
        (GetFile ⟨true, false⟩ (.success stat0 content12) "dir/key"
          ⟨"00000000", ""⟩) = true ∧
      getFileOk
          (GetFile ⟨true, false⟩ (.success stat0 content12) "dir/key"
            ⟨"00000000", "443217297805b7b46584cea3c26980f0"⟩) = true ∧
      crc32cHex content12 ≠ "00000000" ∧
      md5Hex content12 = "443217297805b7b46584cea3c26980f0" := by
  refine ⟨?_, ?_, ?_, ?_⟩ <;> decide

/-- C7: an explicit integrity-check request for a kind whose global
support is disabled still populates that kind's checksum field in the
returned FileInfo when the verification succeeds (the expectation equals
the embedded value, or the digest computed from content when no value is
embedded). -/
theorem getFile_explicit_check_populates_disabled_kind
    (crcFlag mdFlag : Bool) (stat : ObjStat) (content : List Nat)
    (path : String) (exp : String) (hne : exp ≠ "") :
    (exp = (if mget stat.userMetadata keyCR32CChecksum = "" then
              crc32cHex content
            else mget stat.userMetadata keyCR32CChecksum) →
        getFileChecksumCRC32C
            (GetFile ⟨false, mdFlag⟩ (.success stat content) path
              ⟨exp, ""⟩) = some exp) ∧
      (exp = (if mget stat.userMetadata keyMD5Checksum = "" then
                md5Hex content
              else mget stat.userMetadata keyMD5Checksum) →
          getFileChecksumMD5
              (GetFile ⟨crcFlag, false⟩ (.success stat content) path
                ⟨"", exp⟩) = some exp) := by
  constructor
  · intro hexp
    by_cases hemb : mget stat.userMetadata keyCR32CChecksum = "" <;>
      · simp only [hemb, if_true, if_false] at hexp
        subst hexp
        cases mdFlag <;>
          by_cases hmd5 : mget stat.userMetadata keyMD5Checksum = "" <;>
            simp [GetFile, handleIntegrity, handleGetFileIntegritySettings,
              handleGetFileIntegrityOptions,
              handleGetFileIntegrityCheckOptionsCRC32C, getFileChecksumCRC32C,
              compareChecksum, getCheckSumCRC32C, getCheckSumMD5,
              GenerateCheckSumCRC32C, GenerateCheckSumMD5,
              ByteStream.seekStart, hemb, hmd5, hne]
  · intro hexp
    by_cases hemb : mget stat.userMetadata keyMD5Checksum = "" <;>
      · simp only [hemb, if_true, if_false] at hexp
        subst hexp
        cases crcFlag <;>
          by_cases hcrc : mget stat.userMetadata keyCR32CChecksum = "" <;>
            simp [GetFile, handleIntegrity, handleGetFileIntegritySettings,
              handleGetFileIntegrityOptions,
              handleGetFileIntegrityCheckOptionsMD5, getFileChecksumMD5,
              compareChecksum, getCheckSumCRC32C, getCheckSumMD5,
              GenerateCheckSumCRC32C, GenerateCheckSumMD5,
              ByteStream.seekStart, hemb, hcrc, hne]

/-- C7 (witness): explicit CRC32C verification with both global flags
disabled, on an object with no embedded checksums, with the correct
expectation "4748d6bb". -/
theorem getFile_explicit_check_populates_disabled_kind_witness :
    ("4748d6bb" : String) ≠ "" ∧
      getFileChecksumCRC32C
          (GetFile ⟨false, false⟩ (.success stat0 content12) "dir/key"
            ⟨"4748d6bb", ""⟩) = some "4748d6bb" :=
  ⟨by decide,
    (getFile_explicit_check_populates_disabled_kind false false stat0
          content12 "dir/key" "4748d6bb" (by decide)).1 (by decide)⟩

/-- C8: compareChecksum never reports a mismatch for an empty expected
string, and reports a mismatch exactly when the expected string is
non-empty and differs from the actual checksum. -/
theorem compareChecksum_mismatch_iff (c exp : String) :
    compareChecksum c "" = none ∧
      (compareChecksum c exp = some .errChecksumMismatch ↔
        exp ≠ "" ∧ exp ≠ c) := by
  constructor
  · simp [compareChecksum]
  · by_cases h : exp ≠ "" ∧ exp ≠ c <;> simp [compareChecksum, h]

/-- C9: the checksum generators are pure functions (computing twice over
the same stream yields identical results), and on the content
"asdfqweryxcv" they produce CRC32C "4748d6bb" and MD5
"443217297805b7b46584cea3c26980f0". -/
theorem generateCheckSum_deterministic_and_concrete :
    (∀ s : ByteStream,
        GenerateCheckSumCRC32C s = GenerateCheckSumCRC32C s ∧
          GenerateCheckSumMD5 s = GenerateCheckSumMD5 s) ∧
      (GenerateCheckSumCRC32C ⟨strBytes "asdfqweryxcv", 0⟩).2 =
        "4748d6bb" ∧
      (GenerateCheckSumMD5 ⟨strBytes "asdfqweryxcv", 0⟩).2 =
        "443217297805b7b46584cea3c26980f0" :=
  ⟨fun _ => ⟨rfl, rfl⟩, by decide, by decide⟩

/-- C10: file.Bytes returns a buffer whose length equals Info().Size no
matter how many bytes the single underlying Read produced (n), both when
the Read reports no error and when it reports io.EOF: a short read is
undetected and content beyond Size bytes is never read. -/
theorem file_Bytes_length_eq_size (f : GoFile) (n : Nat) :
    (∃ buf, f.Bytes n none = .ok buf ∧ buf.length = f.info.size.toNat) ∧
      (∃ buf,
        f.Bytes n (some .eof) = .ok buf ∧
          buf.length = f.info.size.toNat) := by
  constructor <;>
    · refine ⟨_, rfl, ?_⟩
      simp only [GoFile.Bytes, List.length_append, List.length_take,
        List.length_replicate, List.length_drop]
      omega

end S3
